import Mathlib

/-!
Shallow embedding of the Socket.IO chat server in `src/server.ts`
(the `chatIO.on('connection', ...)` block, lines 92-200).

The transport layer (socket.io) semantics embedded here:
  * every socket is, from connection time, a member of a room named by its
    own id (`socket.to(sid)` unicast works through that room);
  * `socket.join(room)` adds the socket to the room's member list without
    leaving any previously joined room; a repeated join is a no-op;
  * `chatIO.in(room).fetchSockets()` enumerates the room's members in join
    order; `chatIO.in(room).emit` sends to every member,
    `socket.to(room).emit` to every member except the sender;
  * on disconnect the socket leaves all rooms before the `disconnect`
    handler runs, so membership queries inside that handler no longer see it;
  * `socket.use` middleware runs on every inbound client packet; on failure
    the packet is not dispatched and the socket's `error` handler runs,
    which here emits `status {unauthorized}` and calls `socket.disconnect()`
    (which in turn fires the `disconnect` handler).

JavaScript `Record<string,string>` insertion/overwrite semantics
(`users[author] = id`) are modelled by `recordSet` on association lists.
-/

namespace SocketChat

/-- The `ChatMessage` interface of `server.ts` (lines 67-74). -/
structure ChatMessage where
  messageId : String
  room : String
  author : String
  message : String
  time : String
deriving DecidableEq, Repr

/-- Server-side per-socket state: transport id, the `socket.data.room` /
`socket.data.author` attributes set by `join_room`, the handshake auth
token (`socket.handshake.auth.token`, `none` when absent), and liveness. -/
structure Socket where
  sid : String
  dataRoom : Option String
  dataAuthor : Option String
  token : Option String
  connected : Bool
deriving DecidableEq, Repr

/-- The whole chat server state: the socket table plus the adapter's room
map (room name to member socket ids, in join order). -/
structure ServerState where
  socks : List Socket
  adapter : List (String × List String)
deriving DecidableEq, Repr

/-- Payloads of server-to-client emissions, one constructor per event shape. -/
inductive Payload where
  | statusUnauthorized : Payload
  | onlineUsers (roster : List (String × String)) : Payload
  | userJoined (author : String) (socketId : String)
      (users : List (String × String)) : Payload
  | userLeft (author : Option String) (users : List (String × String)) : Payload
  | receiveMessage (msg : ChatMessage) : Payload
  | receivePrivateMessage (msg : ChatMessage) : Payload
  | userTyping (author : String) : Payload
  | userStopTyping (author : String) : Payload
  | updateReadReceipts (messageId : String) (reader : String) : Payload
  | updateReactions (messageId : String) (emoji : String)
      (reactor : String) : Payload
deriving DecidableEq, Repr

/-- One server-to-client delivery: recipient socket id, event name, payload. -/
structure Emission where
  toSid : String
  event : String
  payload : Payload
deriving DecidableEq, Repr

/-- The seven inbound client events handled by the server. -/
inductive ClientEvent where
  | join_room (room : String) (author : String) : ClientEvent
  | send_message (msg : ChatMessage) : ClientEvent
  | typing (room : String) (author : String) : ClientEvent
  | stop_typing (room : String) (author : String) : ClientEvent
  | message_read (room : String) (messageId : String)
      (reader : String) : ClientEvent
  | private_message (toSocketId : String) (msg : ChatMessage) : ClientEvent
  | react_message (room : String) (messageId : String) (emoji : String)
      (reactor : String) : ClientEvent
deriving DecidableEq, Repr

/-- Look a socket up by id in the socket table. -/
def findSock (socks : List Socket) (sid : String) : Option Socket :=
  socks.find? (fun s => s.sid == sid)

/-- Rewrite every socket with the given id through `f`. -/
def updateSock (socks : List Socket) (sid : String) (f : Socket → Socket) :
    List Socket :=
  socks.map (fun s => if s.sid == sid then f s else s)

/-- The adapter's member list for a room, in join order
(empty when the room is unknown). -/
def roomSids (ad : List (String × List String)) (room : String) :
    List String :=
  ((ad.find? (fun p => p.1 == room)).map Prod.snd).getD []

/-- `socket.join(room)`: append the id to the room's member list unless it
is already there; create the room if absent. -/
def addToRoom (ad : List (String × List String)) (room : String)
    (sid : String) : List (String × List String) :=
  if (ad.find? (fun p => p.1 == room)).isSome then
    ad.map (fun p =>
      if p.1 == room then
        (p.1, if p.2.contains sid then p.2 else p.2 ++ [sid])
      else p)
  else ad ++ [(room, [sid])]

/-- On disconnect the socket leaves every room. -/
def removeFromAllRooms (ad : List (String × List String)) (sid : String) :
    List (String × List String) :=
  ad.map (fun p => (p.1, p.2.filter (fun i => i != sid)))

/-- `chatIO.in(room).fetchSockets()`: the room's live members, in join
order. -/
def fetchSockets (st : ServerState) (room : String) : List Socket :=
  (roomSids st.adapter room).filterMap (fun i =>
    (findSock st.socks i).bind (fun s => if s.connected then some s else none))

/-- JavaScript `m[k] = v` on a string record: overwrite in place when the
key exists (keeping its position), otherwise append. -/
def recordSet (m : List (String × String)) (k v : String) :
    List (String × String) :=
  if m.any (fun p => p.1 == k) then
    m.map (fun p => if p.1 == k then (p.1, v) else p)
  else m ++ [(k, v)]

/-- One iteration of the `clients.forEach` loop:
`if (s.data.author) users[s.data.author] = s.id`. The JavaScript
truthiness test drops a missing or empty author. -/
def usersStep (m : List (String × String)) (s : Socket) :
    List (String × String) :=
  match s.dataAuthor with
  | some a => if a == "" then m else recordSet m a s.sid
  | none => m

/-- The `users` record built in `join_room` and in the disconnect handler:
`clients.forEach(s => { if (s.data.author) users[s.data.author] = s.id })`. -/
def buildUsers (clients : List Socket) : List (String × String) :=
  clients.foldl usersStep []

/-- `chatIO.in(room).emit(ev, p)`: deliver to every live member of the
room, the triggering socket included when it is a member. -/
def emitToRoom (st : ServerState) (room : String) (ev : String)
    (p : Payload) : List Emission :=
  (fetchSockets st room).map (fun s => ⟨s.sid, ev, p⟩)

/-- `socket.to(room).emit(ev, p)`: deliver to every live member of the
room except the sender. -/
def emitFromTo (st : ServerState) (sender room : String) (ev : String)
    (p : Payload) : List Emission :=
  ((fetchSockets st room).filter (fun s => s.sid != sender)).map
    (fun s => ⟨s.sid, ev, p⟩)

/-- The state after `join_room`: `socket.join(data.room)` plus
`socket.data.room = data.room; socket.data.author = data.author`. -/
def joinedState (st : ServerState) (sid room author : String) : ServerState :=
  { socks := updateSock st.socks sid (fun s =>
      { s with dataRoom := some room, dataAuthor := some author })
    adapter := addToRoom st.adapter room sid }

/-- The state after a socket's transport closes: it goes dead and leaves
every room. -/
def droppedState (st : ServerState) (sid : String) : ServerState :=
  { socks := updateSock st.socks sid (fun s => { s with connected := false })
    adapter := removeFromAllRooms st.adapter sid }

/-- The seven `socket.on(...)` handlers of `server.ts` (lines 117-177),
sender identified by `sid`. Returns the new state and the emissions. -/
def handleEvent (st : ServerState) (sid : String) :
    ClientEvent → ServerState × List Emission
  | .join_room room author =>
      let st1 := joinedState st sid room author
      let users := buildUsers (fetchSockets st1 room)
      (st1,
        emitToRoom st1 room "online_users" (.onlineUsers users)
          ++ emitToRoom st1 room "user_joined" (.userJoined author sid users))
  | .send_message msg =>
      (st, emitFromTo st sid msg.room "receive_message" (.receiveMessage msg))
  | .typing room author =>
      (st, emitFromTo st sid room "user_typing" (.userTyping author))
  | .stop_typing room author =>
      (st, emitFromTo st sid room "user_stop_typing" (.userStopTyping author))
  | .message_read room messageId reader =>
      (st, emitFromTo st sid room "update_read_receipts"
        (.updateReadReceipts messageId reader))
  | .private_message toSocketId msg =>
      (st, emitFromTo st sid toSocketId "receive_private_message"
        (.receivePrivateMessage msg))
  | .react_message room messageId emoji reactor =>
      (st, emitFromTo st sid room "update_reactions"
        (.updateReactions messageId emoji reactor))

/-- The `disconnect` handler (lines 180-199): the socket first leaves all
rooms and goes dead (transport semantics), then, when `socket.data.room`
was set, the presence roster is recomputed over the post-departure
membership and `online_users` and `user_left` are broadcast to the room. -/
def handleDisconnect (st : ServerState) (sid : String) :
    ServerState × List Emission :=
  match findSock st.socks sid with
  | none => (st, [])
  | some sock =>
    if sock.connected then
      let st1 := droppedState st sid
      match sock.dataRoom with
      | some room =>
        let users := buildUsers (fetchSockets st1 room)
        (st1,
          emitToRoom st1 room "online_users" (.onlineUsers users)
            ++ emitToRoom st1 room "user_left"
                (.userLeft sock.dataAuthor users))
      | none => (st1, [])
    else (st, [])

/-- The per-packet auth middleware (lines 96-106): missing token or a
verifier failure rejects the packet. `verify` abstracts
`verifyAccessToken` (`true` = returns, `false` = throws). -/
def authOk (verify : String → Bool) (sock : Socket) : Bool :=
  match sock.token with
  | none => false
  | some t => verify t

/-- Process one inbound client event: the middleware re-verifies the
handshake token (no caching); on failure the `error` handler emits
`status {unauthorized}` and disconnects the socket (which fires the
`disconnect` handler); on success the event's handler runs. A dead or
unknown socket produces nothing. -/
def processClientEvent (verify : String → Bool) (st : ServerState)
    (sid : String) (ev : ClientEvent) : ServerState × List Emission :=
  match findSock st.socks sid with
  | none => (st, [])
  | some sock =>
    if sock.connected then
      if authOk verify sock then
        handleEvent st sid ev
      else
        let r := handleDisconnect st sid
        (r.1, ⟨sid, "status", .statusUnauthorized⟩ :: r.2)
    else (st, [])

/-- A freshly connected socket: no data attributes, member of its personal
room only. -/
def freshSocket (sid : String) (tok : Option String) : Socket :=
  ⟨sid, none, none, tok, true⟩

/-- Accept a new connection: add the socket and its personal room. -/
def connectSock (st : ServerState) (sid : String) (tok : Option String) :
    ServerState :=
  { socks := st.socks ++ [freshSocket sid tok]
    adapter := addToRoom st.adapter sid sid }

/-- The empty server. -/
def initialState : ServerState := ⟨[], []⟩

/-- Run a list of (sender, event) pairs through the server. -/
def runEvents (verify : String → Bool) (st : ServerState)
    (evs : List (String × ClientEvent)) : ServerState :=
  evs.foldl (fun s pe => (processClientEvent verify s pe.1 pe.2).1) st

/-! ### Basic lemmas about the list-level operations -/

theorem find?_map_pred_inv {α : Type} (g : α → α) (p : α → Bool)
    (hg : ∀ a, p (g a) = p a) (l : List α) :
    (l.map g).find? p = (l.find? p).map g := by
  induction l with
  | nil => rfl
  | cons a l ih =>
    by_cases h : p a = true
    · rw [List.map_cons, List.find?_cons_of_pos _ ((hg a).trans h),
        List.find?_cons_of_pos _ h]
      rfl
    · rw [List.map_cons, List.find?_cons_of_neg _ (by rw [hg]; exact h),
        List.find?_cons_of_neg _ h, ih]

theorem findSock_mem {socks : List Socket} {sid : String} {s : Socket}
    (h : findSock socks sid = some s) : s ∈ socks ∧ s.sid = sid :=
  ⟨List.mem_of_find?_eq_some h, by simpa using List.find?_some h⟩

theorem findSock_updateSock (socks : List Socket) (sid : String)
    (f : Socket → Socket) (hf : ∀ s, (f s).sid = s.sid) (i : String) :
    findSock (updateSock socks sid f) i =
      (findSock socks i).map (fun s => if s.sid == sid then f s else s) := by
  unfold findSock updateSock
  exact find?_map_pred_inv _ _
    (fun s => by by_cases h : s.sid == sid <;> simp [h, hf]) socks

theorem mem_emitFromTo {st : ServerState} {sender room ev : String}
    {p : Payload} {e : Emission} :
    e ∈ emitFromTo st sender room ev p ↔
      ∃ s ∈ fetchSockets st room, s.sid ≠ sender ∧ e = ⟨s.sid, ev, p⟩ := by
  simp only [emitFromTo, List.mem_map, List.mem_filter, bne_iff_ne, ne_eq]
  constructor
  · rintro ⟨s, ⟨hs, hne⟩, rfl⟩
    exact ⟨s, hs, hne, rfl⟩
  · rintro ⟨s, hs, hne, rfl⟩
    exact ⟨s, ⟨hs, hne⟩, rfl⟩

theorem emitFromTo_toSid_ne {st : ServerState} {sender room ev : String}
    {p : Payload} {e : Emission} (h : e ∈ emitFromTo st sender room ev p) :
    e.toSid ≠ sender := by
  rcases mem_emitFromTo.mp h with ⟨s, _, hne, rfl⟩
  exact hne

theorem mem_emitToRoom {st : ServerState} {room ev : String} {p : Payload}
    {e : Emission} :
    e ∈ emitToRoom st room ev p ↔
      ∃ s ∈ fetchSockets st room, e = ⟨s.sid, ev, p⟩ := by
  simp only [emitToRoom, List.mem_map]
  constructor
  · rintro ⟨s, hs, rfl⟩
    exact ⟨s, hs, rfl⟩
  · rintro ⟨s, hs, rfl⟩
    exact ⟨s, hs, rfl⟩

theorem mem_fetchSockets {st : ServerState} {room : String} {s : Socket} :
    s ∈ fetchSockets st room ↔
      s.sid ∈ roomSids st.adapter room ∧ findSock st.socks s.sid = some s ∧
        s.connected = true := by
  simp only [fetchSockets, List.mem_filterMap, Option.bind_eq_some]
  constructor
  · rintro ⟨i, hi, s0, hfind, hg⟩
    by_cases hc : s0.connected = true
    · rw [if_pos hc] at hg
      have hse : s0 = s := Option.some.inj hg
      rw [hse] at hfind hc
      have hsid : s.sid = i := (findSock_mem hfind).2
      rw [← hsid] at hi hfind
      exact ⟨hi, hfind, hc⟩
    · rw [if_neg hc] at hg
      exact absurd hg (by simp)
  · rintro ⟨hi, hfind, hc⟩
    exact ⟨s.sid, hi, s, hfind, if_pos hc⟩

theorem fetchSockets_sub {st : ServerState} {room : String} {s : Socket}
    (h : s ∈ fetchSockets st room) : s ∈ st.socks ∧ s.connected = true := by
  rcases mem_fetchSockets.mp h with ⟨-, hfind, hc⟩
  exact ⟨(findSock_mem hfind).1, hc⟩

theorem self_mem_roomSids_addToRoom (ad : List (String × List String))
    (room sid : String) : sid ∈ roomSids (addToRoom ad room sid) room := by
  unfold addToRoom roomSids
  rcases hfind : ad.find? (fun p => p.1 == room) with _ | q
  · rw [if_neg (by rw [hfind]; simp), List.find?_append, hfind,
      List.find?_cons_of_pos _ (by simp)]
    simp
  · rw [if_pos (by rw [hfind]; simp),
      find?_map_pred_inv _ _
        (fun p => by by_cases h : (p.1 == room) = true <;> simp [h]) ad,
      hfind]
    have hq : (q.1 == room) = true := by simpa using List.find?_some hfind
    rw [Option.map_some', Option.map_some', Option.getD_some]
    simp only [hq, if_true]
    by_cases hmem : q.2.contains sid = true
    · rw [if_pos hmem]
      exact List.mem_of_elem_eq_true hmem
    · rw [if_neg hmem]
      exact List.mem_append_right _ (List.mem_singleton.mpr rfl)

theorem mem_roomSids_addToRoom {ad : List (String × List String)}
    {R i : String} (hmem : i ∈ roomSids ad R) (Rp j : String) :
    i ∈ roomSids (addToRoom ad Rp j) R := by
  unfold roomSids at hmem
  rcases hfind : ad.find? (fun p => p.1 == R) with _ | q
  · rw [hfind] at hmem
    exact absurd hmem (by simp)
  · rw [hfind] at hmem
    rw [Option.map_some', Option.getD_some] at hmem
    have hqR : (q.1 == R) = true := by simpa using List.find?_some hfind
    unfold addToRoom roomSids
    rcases hfindp : ad.find? (fun p => p.1 == Rp) with _ | qp
    · rw [if_neg (by rw [hfindp]; simp), List.find?_append, hfind]
      simpa using hmem
    · rw [if_pos (by rw [hfindp]; simp),
        find?_map_pred_inv _ _
          (fun p => by by_cases h : (p.1 == Rp) = true <;> simp [h]) ad,
        hfind]
      rw [Option.map_some', Option.map_some', Option.getD_some]
      by_cases hq : (q.1 == Rp) = true
      · simp only [hq, if_true]
        by_cases hc : q.2.contains j = true
        · rw [if_pos hc]
          exact hmem
        · rw [if_neg hc]
          exact List.mem_append_left _ hmem
      · simp only [hq, if_false]
        exact hmem

/-! ### Lemmas about the presence record (`recordSet` / `buildUsers`) -/

theorem usersStep_none {s : Socket} (h : s.dataAuthor = none)
    (m : List (String × String)) : usersStep m s = m := by
  unfold usersStep
  rw [h]

theorem usersStep_some {s : Socket} {a : String} (h : s.dataAuthor = some a)
    (m : List (String × String)) :
    usersStep m s = if (a == "") = true then m else recordSet m a s.sid := by
  unfold usersStep
  rw [h]

theorem recordSet_forall {m : List (String × String)}
    {P : String × String → Prop} (hm : ∀ p ∈ m, P p) {k v : String}
    (hkv : P (k, v)) : ∀ p ∈ recordSet m k v, P p := by
  intro p hp
  unfold recordSet at hp
  by_cases hany : m.any (fun q => q.1 == k) = true
  · rw [if_pos hany] at hp
    rcases List.mem_map.mp hp with ⟨q, hq, rfl⟩
    by_cases hqk : (q.1 == k) = true
    · simp only [hqk, if_true]
      have hq1 : q.1 = k := by simpa using hqk
      rw [hq1]
      exact hkv
    · simp only [hqk, if_false]
      exact hm q hq
  · rw [if_neg hany] at hp
    rcases List.mem_append.mp hp with h | h
    · exact hm p h
    · rw [List.mem_singleton.mp h]
      exact hkv

theorem mem_recordSet_self (m : List (String × String)) (k v : String) :
    (k, v) ∈ recordSet m k v := by
  unfold recordSet
  by_cases hany : m.any (fun q => q.1 == k) = true
  · rw [if_pos hany]
    rcases List.any_eq_true.mp hany with ⟨q, hq, hqk⟩
    refine List.mem_map.mpr ⟨q, hq, ?_⟩
    have hq1 : q.1 = k := by simpa using hqk
    simp [hqk, hq1]
  · rw [if_neg hany]
    exact List.mem_append_right _ (List.mem_singleton.mpr rfl)

theorem mem_recordSet_of_ne {m : List (String × String)} {k v : String}
    (hmem : (k, v) ∈ m) {kp vp : String} (hne : k ≠ kp) :
    (k, v) ∈ recordSet m kp vp := by
  unfold recordSet
  by_cases hany : m.any (fun q => q.1 == kp) = true
  · rw [if_pos hany]
    refine List.mem_map.mpr ⟨(k, v), hmem, ?_⟩
    simp [hne]
  · rw [if_neg hany]
    exact List.mem_append_left _ hmem

theorem usersFold_forall {P : String × String → Prop} :
    ∀ (ms : List Socket) (m0 : List (String × String)),
      (∀ p ∈ m0, P p) →
      (∀ s ∈ ms, ∀ a, s.dataAuthor = some a → a ≠ "" → P (a, s.sid)) →
      ∀ p ∈ ms.foldl usersStep m0, P p := by
  intro ms
  induction ms with
  | nil =>
    intro m0 h0 _ p hp
    exact h0 p hp
  | cons s rest ih =>
    intro m0 h0 hs p hp
    rw [List.foldl_cons] at hp
    refine ih (usersStep m0 s) ?_
      (fun s2 h2 => hs s2 (List.mem_cons_of_mem _ h2)) p hp
    rcases ha : s.dataAuthor with _ | a
    · rw [usersStep_none ha]
      exact h0
    · rw [usersStep_some ha]
      by_cases he : (a == "") = true
      · rw [if_pos he]
        exact h0
      · rw [if_neg he]
        exact recordSet_forall h0
          (hs s (List.mem_cons_self _ _) a ha (by simpa using he))

/-- Every entry of the presence record names a member socket with that
(nonempty) author name, and carries that socket's id. -/
theorem buildUsers_mem_source (ms : List Socket) :
    ∀ p ∈ buildUsers ms,
      p.1 ≠ "" ∧ ∃ s ∈ ms, s.dataAuthor = some p.1 ∧ p.2 = s.sid := by
  refine usersFold_forall ms [] (by simp) ?_
  intro s hs a ha hne
  exact ⟨hne, s, hs, ha, rfl⟩

theorem usersFold_preserves {A v : String} :
    ∀ (l : List Socket) (m : List (String × String)),
      (∀ t ∈ l, t.dataAuthor ≠ some A) → (A, v) ∈ m →
      (A, v) ∈ l.foldl usersStep m := by
  intro l
  induction l with
  | nil =>
    intro m _ hm
    exact hm
  | cons s rest ih =>
    intro m hl hm
    rw [List.foldl_cons]
    refine ih _ (fun t ht => hl t (List.mem_cons_of_mem _ ht)) ?_
    rcases ha : s.dataAuthor with _ | a
    · rw [usersStep_none ha]
      exact hm
    · rw [usersStep_some ha]
      by_cases he : (a == "") = true
      · rw [if_pos he]
        exact hm
      · rw [if_neg he]
        refine mem_recordSet_of_ne hm ?_
        intro hcon
        exact hl s (List.mem_cons_self _ _) (by rw [ha, hcon])

/-- The last member of the enumeration carrying a given (nonempty) author
name owns that author's presence entry. -/
theorem buildUsers_last_author {l1 l2 : List Socket} {s : Socket}
    {A : String} (hA : s.dataAuthor = some A) (hne : A ≠ "")
    (hlast : ∀ t ∈ l2, t.dataAuthor ≠ some A) :
    (A, s.sid) ∈ buildUsers (l1 ++ s :: l2) := by
  unfold buildUsers
  rw [List.foldl_append, List.foldl_cons]
  refine usersFold_preserves l2 _ hlast ?_
  rw [usersStep_some hA, if_neg (by simpa using hne)]
  exact mem_recordSet_self _ _ _

/-! ### The dead-socket invariant: a disconnected id never reappears -/

/-- Every socket in the table carrying this id is disconnected. -/
def deadAt (st : ServerState) (i : String) : Prop :=
  ∀ s ∈ st.socks, s.sid = i → s.connected = false

theorem roster_excludes_dead {st : ServerState} {i : String}
    (hd : deadAt st i) (room : String) :
    ∀ p ∈ buildUsers (fetchSockets st room), p.2 ≠ i := by
  intro p hp hcon
  obtain ⟨-, s, hs, -, hpv⟩ := buildUsers_mem_source _ p hp
  obtain ⟨hmem, hconn⟩ := fetchSockets_sub hs
  have hdead := hd s hmem (by rw [← hpv, hcon])
  rw [hdead] at hconn
  exact Bool.false_ne_true hconn

/-! ### Equation lemmas for the dispatch functions -/

theorem handleDisconnect_none {st : ServerState} {sid : String}
    (hfind : findSock st.socks sid = none) :
    handleDisconnect st sid = (st, []) := by
  unfold handleDisconnect
  rw [hfind]

theorem handleDisconnect_dead {st : ServerState} {sid : String}
    {sock : Socket} (hfind : findSock st.socks sid = some sock)
    (hc : sock.connected = false) : handleDisconnect st sid = (st, []) := by
  unfold handleDisconnect
  rw [hfind]
  simp [hc]

theorem handleDisconnect_noRoom {st : ServerState} {sid : String}
    {sock : Socket} (hfind : findSock st.socks sid = some sock)
    (hc : sock.connected = true) (hroom : sock.dataRoom = none) :
    handleDisconnect st sid = (droppedState st sid, []) := by
  unfold handleDisconnect
  rw [hfind]
  simp only [hc, if_true]
  rw [hroom]

theorem handleDisconnect_room {st : ServerState} {sid : String}
    {sock : Socket} {room : String}
    (hfind : findSock st.socks sid = some sock)
    (hc : sock.connected = true) (hroom : sock.dataRoom = some room) :
    handleDisconnect st sid =
      (droppedState st sid,
        emitToRoom (droppedState st sid) room "online_users"
            (.onlineUsers (buildUsers (fetchSockets (droppedState st sid) room)))
          ++ emitToRoom (droppedState st sid) room "user_left"
              (.userLeft sock.dataAuthor
                (buildUsers (fetchSockets (droppedState st sid) room)))) := by
  unfold handleDisconnect
  rw [hfind]
  simp only [hc, if_true]
  rw [hroom]

theorem processClientEvent_not_found {verify : String → Bool}
    {st : ServerState} {sid : String} (ev : ClientEvent)
    (hfind : findSock st.socks sid = none) :
    processClientEvent verify st sid ev = (st, []) := by
  unfold processClientEvent
  rw [hfind]

theorem processClientEvent_dead {verify : String → Bool} {st : ServerState}
    {sid : String} {sock : Socket} (ev : ClientEvent)
    (hfind : findSock st.socks sid = some sock)
    (hc : sock.connected = false) :
    processClientEvent verify st sid ev = (st, []) := by
  unfold processClientEvent
  rw [hfind]
  simp [hc]

theorem processClientEvent_auth_ok {verify : String → Bool}
    {st : ServerState} {sid : String} {sock : Socket} (ev : ClientEvent)
    (hfind : findSock st.socks sid = some sock)
    (hc : sock.connected = true) (ha : authOk verify sock = true) :
    processClientEvent verify st sid ev = handleEvent st sid ev := by
  unfold processClientEvent
  rw [hfind]
  simp [hc, ha]

theorem processClientEvent_auth_fail {verify : String → Bool}
    {st : ServerState} {sid : String} {sock : Socket} (ev : ClientEvent)
    (hfind : findSock st.socks sid = some sock)
    (hc : sock.connected = true) (ha : authOk verify sock = false) :
    processClientEvent verify st sid ev =
      ((handleDisconnect st sid).1,
        ⟨sid, "status", .statusUnauthorized⟩ :: (handleDisconnect st sid).2) := by
  unfold processClientEvent
  rw [hfind]
  simp [hc, ha]

theorem handleEvent_join {st : ServerState} {sid room author : String} :
    handleEvent st sid (.join_room room author) =
      (joinedState st sid room author,
        emitToRoom (joinedState st sid room author) room "online_users"
            (.onlineUsers
              (buildUsers (fetchSockets (joinedState st sid room author) room)))
          ++ emitToRoom (joinedState st sid room author) room "user_joined"
              (.userJoined author sid
                (buildUsers
                  (fetchSockets (joinedState st sid room author) room)))) :=
  rfl

/-! ### Preservation of the dead-socket invariant -/

theorem deadAt_droppedState {st : ServerState} {i : String}
    (hd : deadAt st i) (sid : String) : deadAt (droppedState st sid) i := by
  intro s hs hsid
  rcases List.mem_map.mp hs with ⟨s0, hs0, rfl⟩
  by_cases h0 : (s0.sid == sid) = true
  · simp only [h0, if_true]
  · simp only [h0, if_false] at hsid ⊢
    exact hd s0 hs0 hsid

theorem deadAt_droppedState_self (st : ServerState) (sid : String) :
    deadAt (droppedState st sid) sid := by
  intro s hs hsid
  rcases List.mem_map.mp hs with ⟨s0, hs0, rfl⟩
  by_cases h0 : (s0.sid == sid) = true
  · simp only [h0, if_true]
  · simp only [h0, if_false] at hsid ⊢
    exact absurd (by simpa using hsid : (s0.sid == sid) = true) (by simpa using h0)

theorem deadAt_joinedState {st : ServerState} {i : String} (hd : deadAt st i)
    (sid room author : String) : deadAt (joinedState st sid room author) i := by
  intro s hs hsid
  rcases List.mem_map.mp hs with ⟨s0, hs0, rfl⟩
  by_cases h0 : (s0.sid == sid) = true
  · simp only [h0, if_true] at hsid ⊢
    exact hd s0 hs0 hsid
  · simp only [h0, if_false] at hsid ⊢
    exact hd s0 hs0 hsid

theorem deadAt_handleEvent {st : ServerState} {i : String}
    (hd : deadAt st i) (sid : String) (ev : ClientEvent) :
    deadAt (handleEvent st sid ev).1 i := by
  cases ev with
  | join_room room author => exact deadAt_joinedState hd sid room author
  | send_message msg => exact hd
  | typing room author => exact hd
  | stop_typing room author => exact hd
  | message_read room messageId reader => exact hd
  | private_message toSocketId msg => exact hd
  | react_message room messageId emoji reactor => exact hd

theorem deadAt_handleDisconnect {st : ServerState} {i : String}
    (hd : deadAt st i) (sid : String) :
    deadAt (handleDisconnect st sid).1 i := by
  rcases hfind : findSock st.socks sid with _ | sock
  · rw [handleDisconnect_none hfind]
    exact hd
  · by_cases hc : sock.connected = true
    · rcases hroom : sock.dataRoom with _ | room
      · rw [handleDisconnect_noRoom hfind hc hroom]
        exact deadAt_droppedState hd sid
      · rw [handleDisconnect_room hfind hc hroom]
        exact deadAt_droppedState hd sid
    · rw [handleDisconnect_dead hfind (by simpa using hc)]
      exact hd

theorem deadAt_processClientEvent {st : ServerState} {i : String}
    (hd : deadAt st i) (verify : String → Bool) (sid : String)
    (ev : ClientEvent) : deadAt (processClientEvent verify st sid ev).1 i := by
  rcases hfind : findSock st.socks sid with _ | sock
  · rw [processClientEvent_not_found ev hfind]
    exact hd
  · by_cases hc : sock.connected = true
    · by_cases ha : authOk verify sock = true
      · rw [processClientEvent_auth_ok ev hfind hc ha]
        exact deadAt_handleEvent hd sid ev
      · rw [processClientEvent_auth_fail ev hfind hc (by simpa using ha)]
        exact deadAt_handleDisconnect hd sid
    · rw [processClientEvent_dead ev hfind (by simpa using hc)]
      exact hd

theorem deadAt_runEvents {st : ServerState} {i : String} (hd : deadAt st i)
    (verify : String → Bool) (evs : List (String × ClientEvent)) :
    deadAt (runEvents verify st evs) i := by
  induction evs generalizing st with
  | nil => exact hd
  | cons pe rest ih =>
    exact ih (deadAt_processClientEvent hd verify pe.1 pe.2)

/-- After the disconnect handler has run for a live socket, its id is dead. -/
theorem deadAt_after_disconnect {st : ServerState} {sid : String}
    {sock : Socket} (hfind : findSock st.socks sid = some sock)
    (hc : sock.connected = true) : deadAt (handleDisconnect st sid).1 sid := by
  rcases hroom : sock.dataRoom with _ | room
  · rw [handleDisconnect_noRoom hfind hc hroom]
    exact deadAt_droppedState_self st sid
  · rw [handleDisconnect_room hfind hc hroom]
    exact deadAt_droppedState_self st sid

/-- No live member of a room carries a dead id. -/
theorem fetchSockets_ne_of_deadAt {st : ServerState} {i : String}
    (hd : deadAt st i) (room : String) :
    ∀ s ∈ fetchSockets st room, s.sid ≠ i := by
  intro s hs hcon
  obtain ⟨hmem, hconn⟩ := fetchSockets_sub hs
  have hdead := hd s hmem hcon
  rw [hdead] at hconn
  exact Bool.false_ne_true hconn

theorem processClientEvent_of_deadAt {verify : String → Bool}
    {st : ServerState} {sid : String} (hd : deadAt st sid) (ev : ClientEvent) :
    processClientEvent verify st sid ev = (st, []) := by
  rcases hfind : findSock st.socks sid with _ | s1
  · exact processClientEvent_not_found ev hfind
  · exact processClientEvent_dead ev hfind
      (hd s1 (findSock_mem hfind).1 (findSock_mem hfind).2)

theorem handleDisconnect_emission_facts {st : ServerState} {sid : String} :
    ∀ e ∈ (handleDisconnect st sid).2, e.toSid ≠ sid ∧ e.event ≠ "status" := by
  rcases hfind : findSock st.socks sid with _ | sock
  · rw [handleDisconnect_none hfind]
    simp
  · by_cases hc : sock.connected = true
    · rcases hroom : sock.dataRoom with _ | room
      · rw [handleDisconnect_noRoom hfind hc hroom]
        simp
      · rw [handleDisconnect_room hfind hc hroom]
        intro e he
        rcases List.mem_append.mp he with h | h
        · rcases mem_emitToRoom.mp h with ⟨s, hs, rfl⟩
          refine ⟨fetchSockets_ne_of_deadAt (deadAt_droppedState_self st sid)
            room s hs, ?_⟩
          show ("online_users" : String) ≠ "status"
          decide
        · rcases mem_emitToRoom.mp h with ⟨s, hs, rfl⟩
          refine ⟨fetchSockets_ne_of_deadAt (deadAt_droppedState_self st sid)
            room s hs, ?_⟩
          show ("user_left" : String) ≠ "status"
          decide
    · rw [handleDisconnect_dead hfind (by simpa using hc)]
      simp

/-- The record produced for the joining socket by `join_room`. -/
def joinedSock (sock : Socket) (room author : String) : Socket :=
  { sock with dataRoom := some room, dataAuthor := some author }

/-- After `join_room`, the updated socket is a live member of every room
whose member list carries its id (in particular the room just joined). -/
theorem updated_sock_mem_fetchSockets {st : ServerState} {sid : String}
    {sock : Socket} (hfind : findSock st.socks sid = some sock)
    (hc : sock.connected = true) (room author : String) {R : String}
    (hR : sid ∈ roomSids (addToRoom st.adapter room sid) R) :
    joinedSock sock room author
      ∈ fetchSockets (joinedState st sid room author) R := by
  have hsid : sock.sid = sid := (findSock_mem hfind).2
  refine mem_fetchSockets.mpr ⟨?_, ?_, hc⟩
  · show sock.sid ∈ roomSids (addToRoom st.adapter room sid) R
    rw [hsid]
    exact hR
  · show findSock (updateSock st.socks sid (fun s =>
        { s with dataRoom := some room, dataAuthor := some author }))
          sock.sid = some (joinedSock sock room author)
    rw [hsid, findSock_updateSock st.socks sid
      (fun s => { s with dataRoom := some room, dataAuthor := some author })
      (fun s => rfl) sid, hfind, Option.map_some']
    simp [hsid, joinedSock]

/-- The joining socket is a live member of the room it just joined. -/
theorem joiner_mem_fetchSockets {st : ServerState} {sid : String}
    {sock : Socket} (hfind : findSock st.socks sid = some sock)
    (hc : sock.connected = true) (room author : String) :
    joinedSock sock room author
      ∈ fetchSockets (joinedState st sid room author) room :=
  updated_sock_mem_fetchSockets hfind hc room author
    (self_mem_roomSids_addToRoom st.adapter room sid)

/-! ### Demonstration states used by the witnesses and counterexamples -/

/-- A verifier accepting exactly the token string "good". -/
def vDemo : String → Bool := fun t => t == "good"

/-- Two fresh authorized connections "a" and "b". -/
def stAB : ServerState :=
  connectSock (connectSock initialState "a" (some "good")) "b" (some "good")

/-- Three fresh authorized connections "a", "b" and "c". -/
def stABC : ServerState := connectSock stAB "c" (some "good")

/-- "a" joined room "r" as "alice", then "b" joined room "r" as "bob". -/
def stJoined : ServerState :=
  runEvents vDemo stAB
    [("a", .join_room "r" "alice"), ("b", .join_room "r" "bob")]

/-- A sample chat message for room "r". -/
def demoMsg : ChatMessage := ⟨"m1", "r", "alice", "hi", "t1"⟩

/-! ### Claim C1 — the per-event auth gate -/

/-- Claim C1: for every inbound event on every connection, when the
handshake token is missing or the external verifier throws
(`authOk … = false`), the filtered emissions to that connection consist of
exactly one `status {unauthorized}` event — which is also the only
`status` emission produced at all — the connection is left dead, and
processing any further inbound event for it afterwards runs no handler
and produces nothing. The theorem quantifies over an arbitrary prior
state `st` and verifier, so it covers events arriving after earlier
successes: the gate re-runs `authOk` on the stored handshake token for
every packet, and no verification result is cached. -/
theorem claim_C1_auth_gate (verify : String → Bool) (st : ServerState)
    (sid : String) (sock : Socket) (ev : ClientEvent)
    (hfind : findSock st.socks sid = some sock)
    (hc : sock.connected = true)
    (hbad : authOk verify sock = false) :
    ((processClientEvent verify st sid ev).2.filter
        (fun e => e.toSid == sid)) = [⟨sid, "status", .statusUnauthorized⟩]
    ∧ ((processClientEvent verify st sid ev).2.filter
        (fun e => e.event == "status")) = [⟨sid, "status", .statusUnauthorized⟩]
    ∧ deadAt (processClientEvent verify st sid ev).1 sid
    ∧ ∀ ev2 : ClientEvent,
        processClientEvent verify (processClientEvent verify st sid ev).1 sid
          ev2 = ((processClientEvent verify st sid ev).1, []) := by
  have hE := processClientEvent_auth_fail ev hfind hc hbad
  have hdead : deadAt (processClientEvent verify st sid ev).1 sid := by
    rw [hE]
    exact deadAt_after_disconnect hfind hc
  refine ⟨?_, ?_, hdead, fun ev2 => processClientEvent_of_deadAt hdead ev2⟩
  · have hnil : (handleDisconnect st sid).2.filter
        (fun e => e.toSid == sid) = [] :=
      List.filter_eq_nil_iff.mpr (fun e he => by
        simpa using (handleDisconnect_emission_facts e he).1)
    rw [hE, List.filter_cons, if_pos (by simp), hnil]
  · have hnil : (handleDisconnect st sid).2.filter
        (fun e => e.event == "status") = [] :=
      List.filter_eq_nil_iff.mpr (fun e he => by
        simpa using (handleDisconnect_emission_facts e he).2)
    rw [hE, List.filter_cons, if_pos (by simp), hnil]

/-- Witness for C1: a fresh connection whose handshake token the verifier
rejects, receiving a `typing` event. -/
theorem claim_C1_auth_gate_witness :
    ((processClientEvent (fun t => t == "good")
        (connectSock initialState "a" (some "bad")) "a"
        (.typing "r" "alice")).2.filter
          (fun e => e.toSid == "a")) =
        [⟨"a", "status", .statusUnauthorized⟩]
    ∧ ((processClientEvent (fun t => t == "good")
        (connectSock initialState "a" (some "bad")) "a"
        (.typing "r" "alice")).2.filter
          (fun e => e.event == "status")) =
        [⟨"a", "status", .statusUnauthorized⟩]
    ∧ deadAt (processClientEvent (fun t => t == "good")
        (connectSock initialState "a" (some "bad")) "a"
        (.typing "r" "alice")).1 "a"
    ∧ ∀ ev2 : ClientEvent,
        processClientEvent (fun t => t == "good")
          (processClientEvent (fun t => t == "good")
            (connectSock initialState "a" (some "bad")) "a"
            (.typing "r" "alice")).1 "a" ev2 =
          ((processClientEvent (fun t => t == "good")
            (connectSock initialState "a" (some "bad")) "a"
            (.typing "r" "alice")).1, []) :=
  claim_C1_auth_gate (fun t => t == "good")
    (connectSock initialState "a" (some "bad")) "a"
    (freshSocket "a" (some "bad")) (.typing "r" "alice") rfl rfl rfl

/-! ### Claim C7 — send_message relays the payload unchanged, sender excluded -/

/-- Claim C7: for every `send_message` with payload `msg`, every other live
member of room `msg.room` receives a `receive_message` event whose payload
is `msg` itself (field for field), every emission of the call goes to a
socket other than the sender with exactly that event and payload, and the
server state is unchanged (the sender receives nothing). -/
theorem claim_C7_send_message_relay (verify : String → Bool)
    (st : ServerState) (sid : String) (sock : Socket) (msg : ChatMessage)
    (hfind : findSock st.socks sid = some sock)
    (hc : sock.connected = true) (ha : authOk verify sock = true) :
    (∀ s ∈ fetchSockets st msg.room, s.sid ≠ sid →
      (⟨s.sid, "receive_message", .receiveMessage msg⟩ : Emission)
        ∈ (processClientEvent verify st sid (.send_message msg)).2)
    ∧ (∀ e ∈ (processClientEvent verify st sid (.send_message msg)).2,
        e.toSid ≠ sid ∧ e.event = "receive_message"
          ∧ e.payload = .receiveMessage msg)
    ∧ (processClientEvent verify st sid (.send_message msg)).1 = st := by
  rw [processClientEvent_auth_ok (.send_message msg) hfind hc ha]
  refine ⟨?_, ?_, rfl⟩
  · intro s hs hne
    exact mem_emitFromTo.mpr ⟨s, hs, hne, rfl⟩
  · intro e he
    rcases mem_emitFromTo.mp he with ⟨s, hs, hne, rfl⟩
    exact ⟨hne, rfl, rfl⟩

/-- Witness for C7: "a" sends `demoMsg` in the two-member room "r". -/
theorem claim_C7_send_message_relay_witness :
    (∀ s ∈ fetchSockets stJoined demoMsg.room, s.sid ≠ "a" →
      (⟨s.sid, "receive_message", .receiveMessage demoMsg⟩ : Emission)
        ∈ (processClientEvent vDemo stJoined "a" (.send_message demoMsg)).2)
    ∧ (∀ e ∈ (processClientEvent vDemo stJoined "a" (.send_message demoMsg)).2,
        e.toSid ≠ "a" ∧ e.event = "receive_message"
          ∧ e.payload = .receiveMessage demoMsg)
    ∧ (processClientEvent vDemo stJoined "a" (.send_message demoMsg)).1
        = stJoined :=
  claim_C7_send_message_relay vDemo stJoined "a"
    ⟨"a", some "r", some "alice", some "good", true⟩ demoMsg rfl rfl rfl

/-! ### Claim C2 — fan-out audiences: self-exclusion vs. whole-room broadcasts -/

/-- Claim C2: the five relay events (`send_message`, `typing`,
`stop_typing`, `message_read`, `react_message`) never deliver back to the
sending connection; by contrast the `online_users` / `user_joined`
broadcasts of `join_room` are delivered to every live member of the room —
the freshly joined sender among them — and the `online_users` /
`user_left` broadcasts of the disconnect handler are delivered to every
live member of the room left behind. -/
theorem claim_C2_fanout_audiences (verify : String → Bool) (st : ServerState)
    (sid : String) (sock : Socket)
    (hfind : findSock st.socks sid = some sock)
    (hc : sock.connected = true) (ha : authOk verify sock = true)
    (msg : ChatMessage) (room author messageId reader emoji reactor : String) :
    (∀ e ∈ (processClientEvent verify st sid (.send_message msg)).2,
      e.toSid ≠ sid)
    ∧ (∀ e ∈ (processClientEvent verify st sid (.typing room author)).2,
        e.toSid ≠ sid)
    ∧ (∀ e ∈ (processClientEvent verify st sid (.stop_typing room author)).2,
        e.toSid ≠ sid)
    ∧ (∀ e ∈ (processClientEvent verify st sid
          (.message_read room messageId reader)).2, e.toSid ≠ sid)
    ∧ (∀ e ∈ (processClientEvent verify st sid
          (.react_message room messageId emoji reactor)).2, e.toSid ≠ sid)
    ∧ (∀ s ∈ fetchSockets (joinedState st sid room author) room,
        (⟨s.sid, "online_users", .onlineUsers (buildUsers
            (fetchSockets (joinedState st sid room author) room))⟩ : Emission)
          ∈ (processClientEvent verify st sid (.join_room room author)).2
        ∧ (⟨s.sid, "user_joined", .userJoined author sid (buildUsers
            (fetchSockets (joinedState st sid room author) room))⟩ : Emission)
          ∈ (processClientEvent verify st sid (.join_room room author)).2)
    ∧ (∃ s ∈ fetchSockets (joinedState st sid room author) room, s.sid = sid)
    ∧ (∀ r : String, sock.dataRoom = some r →
        ∀ s ∈ fetchSockets (droppedState st sid) r,
          (⟨s.sid, "online_users", .onlineUsers (buildUsers
              (fetchSockets (droppedState st sid) r))⟩ : Emission)
            ∈ (handleDisconnect st sid).2
          ∧ (⟨s.sid, "user_left", .userLeft sock.dataAuthor (buildUsers
              (fetchSockets (droppedState st sid) r))⟩ : Emission)
            ∈ (handleDisconnect st sid).2) := by
  refine ⟨?_, ?_, ?_, ?_, ?_, ?_, ?_, ?_⟩
  · rw [processClientEvent_auth_ok _ hfind hc ha]
    intro e he
    exact emitFromTo_toSid_ne he
  · rw [processClientEvent_auth_ok _ hfind hc ha]
    intro e he
    exact emitFromTo_toSid_ne he
  · rw [processClientEvent_auth_ok _ hfind hc ha]
    intro e he
    exact emitFromTo_toSid_ne he
  · rw [processClientEvent_auth_ok _ hfind hc ha]
    intro e he
    exact emitFromTo_toSid_ne he
  · rw [processClientEvent_auth_ok _ hfind hc ha]
    intro e he
    exact emitFromTo_toSid_ne he
  · rw [processClientEvent_auth_ok _ hfind hc ha, handleEvent_join]
    intro s hs
    constructor
    · exact List.mem_append.mpr (Or.inl (mem_emitToRoom.mpr ⟨s, hs, rfl⟩))
    · exact List.mem_append.mpr (Or.inr (mem_emitToRoom.mpr ⟨s, hs, rfl⟩))
  · exact ⟨joinedSock sock room author,
      joiner_mem_fetchSockets hfind hc room author, (findSock_mem hfind).2⟩
  · intro r hroom s hs
    rw [handleDisconnect_room hfind hc hroom]
    constructor
    · exact List.mem_append.mpr (Or.inl (mem_emitToRoom.mpr ⟨s, hs, rfl⟩))
    · exact List.mem_append.mpr (Or.inr (mem_emitToRoom.mpr ⟨s, hs, rfl⟩))

/-- Witness for C2: connection "a" of the two-member room, with
`demoMsg` and the concrete relay payload fields. -/
theorem claim_C2_fanout_audiences_witness :
    (∀ e ∈ (processClientEvent vDemo stJoined "a" (.send_message demoMsg)).2,
      e.toSid ≠ "a")
    ∧ (∀ e ∈ (processClientEvent vDemo stJoined "a" (.typing "r" "alice")).2,
        e.toSid ≠ "a")
    ∧ (∀ e ∈ (processClientEvent vDemo stJoined "a"
          (.stop_typing "r" "alice")).2, e.toSid ≠ "a")
    ∧ (∀ e ∈ (processClientEvent vDemo stJoined "a"
          (.message_read "r" "m1" "bob")).2, e.toSid ≠ "a")
    ∧ (∀ e ∈ (processClientEvent vDemo stJoined "a"
          (.react_message "r" "m1" "+1" "bob")).2, e.toSid ≠ "a")
    ∧ (∀ s ∈ fetchSockets (joinedState stJoined "a" "r" "alice") "r",
        (⟨s.sid, "online_users", .onlineUsers (buildUsers
            (fetchSockets (joinedState stJoined "a" "r" "alice") "r"))⟩ :
              Emission)
          ∈ (processClientEvent vDemo stJoined "a" (.join_room "r" "alice")).2
        ∧ (⟨s.sid, "user_joined", .userJoined "alice" "a" (buildUsers
            (fetchSockets (joinedState stJoined "a" "r" "alice") "r"))⟩ :
              Emission)
          ∈ (processClientEvent vDemo stJoined "a" (.join_room "r" "alice")).2)
    ∧ (∃ s ∈ fetchSockets (joinedState stJoined "a" "r" "alice") "r",
        s.sid = "a")
    ∧ (∀ r : String,
        (⟨"a", some "r", some "alice", some "good", true⟩ : Socket).dataRoom
          = some r →
        ∀ s ∈ fetchSockets (droppedState stJoined "a") r,
          (⟨s.sid, "online_users", .onlineUsers (buildUsers
              (fetchSockets (droppedState stJoined "a") r))⟩ : Emission)
            ∈ (handleDisconnect stJoined "a").2
          ∧ (⟨s.sid, "user_left", .userLeft (some "alice") (buildUsers
              (fetchSockets (droppedState stJoined "a") r))⟩ : Emission)
            ∈ (handleDisconnect stJoined "a").2) :=
  claim_C2_fanout_audiences vDemo stJoined "a"
    ⟨"a", some "r", some "alice", some "good", true⟩ rfl rfl rfl
    demoMsg "r" "alice" "m1" "bob" "+1" "bob"

/-! ### Claim C4 — the disconnect reconciler -/

/-- Claim C4: when a live socket whose `room` attribute is set
disconnects, the handler recomputes presence over the post-destruction
membership — exactly one `user_left` emission per remaining member, all
carrying the socket's last known author and the refreshed roster — and
that roster, as well as every presence roster computed for any room in any
later reachable state, excludes the disconnected id; when the `room`
attribute is unset, no broadcast of any kind occurs. -/
theorem claim_C4_disconnect_reconciler (st : ServerState) (sid : String)
    (sock : Socket) (hfind : findSock st.socks sid = some sock)
    (hc : sock.connected = true) :
    (sock.dataRoom = none → handleDisconnect st sid = (droppedState st sid, []))
    ∧ (∀ r : String, sock.dataRoom = some r →
        ((handleDisconnect st sid).2.filter
            (fun e => e.event == "user_left")).map Emission.toSid
          = (fetchSockets (droppedState st sid) r).map Socket.sid
        ∧ (∀ e ∈ (handleDisconnect st sid).2, e.event = "user_left" →
            e.payload = .userLeft sock.dataAuthor
              (buildUsers (fetchSockets (droppedState st sid) r)))
        ∧ (∀ p ∈ buildUsers (fetchSockets (droppedState st sid) r), p.2 ≠ sid))
    ∧ (∀ (verify : String → Bool) (evs : List (String × ClientEvent))
        (room2 : String),
        ∀ p ∈ buildUsers (fetchSockets
            (runEvents verify (handleDisconnect st sid).1 evs) room2),
          p.2 ≠ sid) := by
  refine ⟨fun hroom => handleDisconnect_noRoom hfind hc hroom, ?_, ?_⟩
  · intro r hroom
    rw [handleDisconnect_room hfind hc hroom]
    refine ⟨?_, ?_, roster_excludes_dead (deadAt_droppedState_self st sid) r⟩
    · rw [List.filter_append]
      have hA : (emitToRoom (droppedState st sid) r "online_users"
          (.onlineUsers (buildUsers (fetchSockets (droppedState st sid) r)))).filter
            (fun e => e.event == "user_left") = [] :=
        List.filter_eq_nil_iff.mpr (fun e he => by
          rcases mem_emitToRoom.mp he with ⟨s, hs, rfl⟩
          show ¬(("online_users" : String) == "user_left") = true
          decide)
      have hB : (emitToRoom (droppedState st sid) r "user_left"
          (.userLeft sock.dataAuthor
            (buildUsers (fetchSockets (droppedState st sid) r)))).filter
            (fun e => e.event == "user_left")
          = emitToRoom (droppedState st sid) r "user_left"
              (.userLeft sock.dataAuthor
                (buildUsers (fetchSockets (droppedState st sid) r))) :=
        List.filter_eq_self.mpr (fun e he => by
          rcases mem_emitToRoom.mp he with ⟨s, hs, rfl⟩
          show (("user_left" : String) == "user_left") = true
          decide)
      rw [hA, hB, List.nil_append]
      unfold emitToRoom
      rw [List.map_map]
      rfl
    · intro e he hev
      rcases List.mem_append.mp he with h | h
      · rcases mem_emitToRoom.mp h with ⟨s, hs, rfl⟩
        have hev2 : ("online_users" : String) = "user_left" := hev
        exact absurd hev2 (by decide)
      · rcases mem_emitToRoom.mp h with ⟨s, hs, rfl⟩
        rfl
  · intro verify evs room2
    exact roster_excludes_dead
      (deadAt_runEvents (deadAt_after_disconnect hfind hc) verify evs) room2

/-- Witness for C4: "a" (author "alice", room "r") disconnects from the
two-member room. -/
theorem claim_C4_disconnect_reconciler_witness :
    ((⟨"a", some "r", some "alice", some "good", true⟩ : Socket).dataRoom
        = none →
      handleDisconnect stJoined "a" = (droppedState stJoined "a", []))
    ∧ (∀ r : String,
        (⟨"a", some "r", some "alice", some "good", true⟩ : Socket).dataRoom
          = some r →
        ((handleDisconnect stJoined "a").2.filter
            (fun e => e.event == "user_left")).map Emission.toSid
          = (fetchSockets (droppedState stJoined "a") r).map Socket.sid
        ∧ (∀ e ∈ (handleDisconnect stJoined "a").2, e.event = "user_left" →
            e.payload = .userLeft (some "alice")
              (buildUsers (fetchSockets (droppedState stJoined "a") r)))
        ∧ (∀ p ∈ buildUsers (fetchSockets (droppedState stJoined "a") r),
            p.2 ≠ "a"))
    ∧ (∀ (verify : String → Bool) (evs : List (String × ClientEvent))
        (room2 : String),
        ∀ p ∈ buildUsers (fetchSockets
            (runEvents verify (handleDisconnect stJoined "a").1 evs) room2),
          p.2 ≠ "a") :=
  claim_C4_disconnect_reconciler stJoined "a"
    ⟨"a", some "r", some "alice", some "good", true⟩ rfl rfl

/-! ### Claim C3 — rejoining a different room (corrected) -/

/-- Connection "a" joins room "r1", then room "r2". -/
def stTwoJoins : ServerState :=
  runEvents vDemo (connectSock initialState "a" (some "good"))
    [("a", .join_room "r1" "alice"), ("a", .join_room "r2" "alice")]

/-- Counterexample for C3: after joining "r1" and then "r2", connection
"a" still matches the membership query for "r1" (`socket.join` never
leaves the previous room), and the presence recomputation for "r1" still
lists it — contradicting the claim that the connection no longer matches
the old room's membership query. -/
theorem claim_C3_counterexample :
    (fetchSockets stTwoJoins "r1").map Socket.sid = ["a"]
    ∧ buildUsers (fetchSockets stTwoJoins "r1") = [("alice", "a")]
    ∧ (fetchSockets stTwoJoins "r2").map Socket.sid = ["a"] := by decide

/-- Claim C3 as amended: for a connection already in room `R` that issues
`join_room` for `Rp`, the connection afterwards STILL matches the
membership query for `R` (it is a live member of both rooms), and no
`user_left` event is emitted anywhere for the transition. Only the
`room`/`author` attributes are overwritten. -/
theorem claim_C3_amended (verify : String → Bool) (st : ServerState)
    (sid : String) (sock : Socket) (R Rp A : String)
    (hfind : findSock st.socks sid = some sock)
    (hc : sock.connected = true) (ha : authOk verify sock = true)
    (hR : sid ∈ roomSids st.adapter R) :
    sid ∈ roomSids
        (processClientEvent verify st sid (.join_room Rp A)).1.adapter R
    ∧ (∃ s ∈ fetchSockets
          (processClientEvent verify st sid (.join_room Rp A)).1 R,
        s.sid = sid)
    ∧ (∀ e ∈ (processClientEvent verify st sid (.join_room Rp A)).2,
        e.event ≠ "user_left") := by
  rw [processClientEvent_auth_ok _ hfind hc ha, handleEvent_join]
  refine ⟨?_, ?_, ?_⟩
  · exact mem_roomSids_addToRoom hR Rp sid
  · exact ⟨joinedSock sock Rp A,
      updated_sock_mem_fetchSockets hfind hc Rp A
        (mem_roomSids_addToRoom hR Rp sid),
      (findSock_mem hfind).2⟩
  · intro e he
    rcases List.mem_append.mp he with h | h
    · rcases mem_emitToRoom.mp h with ⟨s, hs, rfl⟩
      show ("online_users" : String) ≠ "user_left"
      decide
    · rcases mem_emitToRoom.mp h with ⟨s, hs, rfl⟩
      show ("user_joined" : String) ≠ "user_left"
      decide

/-- "a" joined room "r1" only. -/
def stOneJoin : ServerState :=
  runEvents vDemo (connectSock initialState "a" (some "good"))
    [("a", .join_room "r1" "alice")]

/-- Witness for the amended C3: "a", a member of "r1", joins "r2". -/
theorem claim_C3_amended_witness :
    ("a" ∈ roomSids stOneJoin.adapter "r1")
    ∧ ("a" ∈ roomSids
        (processClientEvent vDemo stOneJoin "a"
          (.join_room "r2" "alice")).1.adapter "r1"
      ∧ (∃ s ∈ fetchSockets
            (processClientEvent vDemo stOneJoin "a"
              (.join_room "r2" "alice")).1 "r1",
          s.sid = "a")
      ∧ (∀ e ∈ (processClientEvent vDemo stOneJoin "a"
            (.join_room "r2" "alice")).2,
          e.event ≠ "user_left")) :=
  ⟨by decide,
    claim_C3_amended vDemo stOneJoin "a"
      ⟨"a", some "r1", some "alice", some "good", true⟩ "r1" "r2" "alice"
      rfl rfl rfl (by decide)⟩

/-! ### Claim C5 — two-member rosters (corrected) -/

/-- Counterexample for C5: "a" joins room "r" with the empty author name
and "b" joins with "bob". The author names are distinct, yet every
`online_users` roster emitted by the second join has exactly one entry,
not two — the truthiness filter drops the empty author. -/
theorem claim_C5_counterexample :
    ("" : String) ≠ "bob"
    ∧ buildUsers (fetchSockets
        (runEvents vDemo stAB
          [("a", .join_room "r" ""), ("b", .join_room "r" "bob")]) "r")
        = [("bob", "b")]
    ∧ (∀ e ∈ (processClientEvent vDemo
          (runEvents vDemo stAB [("a", .join_room "r" "")]) "b"
          (.join_room "r" "bob")).2,
        e.event = "online_users" →
          e.payload = .onlineUsers [("bob", "b")]) := by decide

/-- The roster produced by exactly two enumerated members with nonempty
author names: distinct names give two entries, a shared name collapses to
one entry owned by the later-enumerated (last-joined) socket. -/
theorem buildUsers_pair {s1 s2 : Socket} {x y : String}
    (h1 : s1.dataAuthor = some x) (h2 : s2.dataAuthor = some y)
    (hx : x ≠ "") (hy : y ≠ "") :
    (x ≠ y → buildUsers [s1, s2] = [(x, s1.sid), (y, s2.sid)])
    ∧ (x = y → buildUsers [s1, s2] = [(y, s2.sid)]) := by
  have hstep1 : usersStep [] s1 = [(x, s1.sid)] := by
    rw [usersStep_some h1, if_neg (by simpa using hx)]
    unfold recordSet
    rw [if_neg (by simp)]
    rfl
  constructor
  · intro hxy
    unfold buildUsers
    rw [List.foldl_cons, List.foldl_cons, List.foldl_nil, hstep1,
      usersStep_some h2, if_neg (by simpa using hy)]
    unfold recordSet
    rw [if_neg (by simp [hxy])]
    rfl
  · intro hxy
    rw [← hxy]
    unfold buildUsers
    rw [List.foldl_cons, List.foldl_cons, List.foldl_nil, hstep1,
      usersStep_some h2, if_neg (by simpa using hy)]
    unfold recordSet
    rw [if_pos (by simp [hxy])]
    simp [hxy]

/-- Claim C5 as amended: for two connections in room `R` (the enumeration
of `R`'s live membership being exactly those two) whose author names are
both NONEMPTY, the `online_users` roster emitted by the join has exactly 2
entries when the names are distinct, and collapses to 1 entry owned by the
most recently enumerated connection when the names coincide. The original
claim fails when an author name is empty (see the counterexample): the
truthiness filter silently drops such a connection from the roster. -/
theorem claim_C5_amended (verify : String → Bool) (st : ServerState)
    (sid : String) (sock : Socket) (room author : String)
    (hfind : findSock st.socks sid = some sock)
    (hc : sock.connected = true) (ha : authOk verify sock = true)
    (s1 s2 : Socket) (x y : String)
    (hmem : fetchSockets (joinedState st sid room author) room = [s1, s2])
    (h1 : s1.dataAuthor = some x) (h2 : s2.dataAuthor = some y)
    (hx : x ≠ "") (hy : y ≠ "") :
    ((x ≠ y → buildUsers (fetchSockets (joinedState st sid room author) room)
        = [(x, s1.sid), (y, s2.sid)])
      ∧ (x = y → buildUsers (fetchSockets (joinedState st sid room author) room)
        = [(y, s2.sid)]))
    ∧ (⟨s1.sid, "online_users", .onlineUsers (buildUsers
        (fetchSockets (joinedState st sid room author) room))⟩ : Emission)
      ∈ (processClientEvent verify st sid (.join_room room author)).2
    ∧ (∀ e ∈ (processClientEvent verify st sid (.join_room room author)).2,
        e.event = "online_users" →
          e.payload = .onlineUsers (buildUsers
            (fetchSockets (joinedState st sid room author) room))) := by
  refine ⟨?_, ?_, ?_⟩
  · rw [hmem]
    exact buildUsers_pair h1 h2 hx hy
  · rw [processClientEvent_auth_ok _ hfind hc ha, handleEvent_join]
    refine List.mem_append.mpr (Or.inl (mem_emitToRoom.mpr ⟨s1, ?_, rfl⟩))
    rw [hmem]
    exact List.mem_cons_self _ _
  · rw [processClientEvent_auth_ok _ hfind hc ha, handleEvent_join]
    intro e he hev
    rcases List.mem_append.mp he with h | h
    · rcases mem_emitToRoom.mp h with ⟨s, hs, rfl⟩
      rfl
    · rcases mem_emitToRoom.mp h with ⟨s, hs, rfl⟩
      have hev2 : ("user_joined" : String) = "online_users" := hev
      exact absurd hev2 (by decide)

/-- "a" joined room "r" as "alice" (only member so far). -/
def stA_r : ServerState :=
  runEvents vDemo stAB [("a", .join_room "r" "alice")]

/-- Witness for the amended C5: "b" joins room "r" as "bob" while "a"
(author "alice") is already there. -/
theorem claim_C5_amended_witness :
    ((("alice" : String) ≠ "bob" →
        buildUsers (fetchSockets (joinedState stA_r "b" "r" "bob") "r")
          = [("alice", "a"), ("bob", "b")])
      ∧ (("alice" : String) = "bob" →
          buildUsers (fetchSockets (joinedState stA_r "b" "r" "bob") "r")
            = [("bob", "b")]))
    ∧ (⟨"a", "online_users", .onlineUsers (buildUsers
        (fetchSockets (joinedState stA_r "b" "r" "bob") "r"))⟩ : Emission)
      ∈ (processClientEvent vDemo stA_r "b" (.join_room "r" "bob")).2
    ∧ (∀ e ∈ (processClientEvent vDemo stA_r "b" (.join_room "r" "bob")).2,
        e.event = "online_users" →
          e.payload = .onlineUsers (buildUsers
            (fetchSockets (joinedState stA_r "b" "r" "bob") "r"))) :=
  claim_C5_amended vDemo stA_r "b" (freshSocket "b" (some "good")) "r" "bob"
    rfl rfl rfl
    ⟨"a", some "r", some "alice", some "good", true⟩
    ⟨"b", some "r", some "bob", some "good", true⟩
    "alice" "bob" (by decide) rfl rfl (by decide) (by decide)

/-! ### Claim C6 — presence containment (corrected) -/

/-- "a" and "b" both joined room "r" with the same author name "alice". -/
def stSameAuthor : ServerState :=
  runEvents vDemo stAB
    [("a", .join_room "r" "alice"), ("b", .join_room "r" "alice")]

/-- Counterexample for C6: connection "a" joined room "r" with author
"alice" and is still a live member, yet after "b" joins with the same
author name the presence roster for "r" no longer contains the entry
`{username: "alice", connectionId: "a"}` — the author-keyed mapping was
overwritten by the later-enumerated connection. -/
theorem claim_C6_counterexample :
    ("a" ∈ (fetchSockets stSameAuthor "r").map Socket.sid)
    ∧ ("alice", "a") ∉ buildUsers (fetchSockets stSameAuthor "r")
    ∧ buildUsers (fetchSockets stSameAuthor "r") = [("alice", "b")] := by
  decide

/-- Claim C6 as amended: a presence query for room `R` contains the entry
`{username: A, connectionId: C}` for a member connection `C` with author
`A` provided `A` is nonempty and no connection enumerated after `C` in
`R`'s membership carries the same author name; the roster remains an
ordered list of (username, connectionId) pairs, and under author-name
shadowing the entry belongs to the latest-enumerated bearer instead. -/
theorem claim_C6_amended (st : ServerState) (R : String)
    (l1 l2 : List Socket) (s : Socket) (A : String)
    (hsplit : fetchSockets st R = l1 ++ s :: l2)
    (hA : s.dataAuthor = some A) (hne : A ≠ "")
    (hlast : ∀ t ∈ l2, t.dataAuthor ≠ some A) :
    (A, s.sid) ∈ buildUsers (fetchSockets st R) := by
  rw [hsplit]
  exact buildUsers_last_author hA hne hlast

/-- Witness for the amended C6: "b" (author "bob") is the last-enumerated
member of room "r" in the two-member joined state. -/
theorem claim_C6_amended_witness :
    ("bob", "b") ∈ buildUsers (fetchSockets stJoined "r") :=
  claim_C6_amended stJoined "r"
    [⟨"a", some "r", some "alice", some "good", true⟩]
    [] ⟨"b", some "r", some "bob", some "good", true⟩ "bob"
    (by decide) rfl (by decide) (by decide)

/-! ### Claim C8 — private messages (corrected) -/

/-- Counterexample for C8: `socket.to(toSocketId)` targets the ROOM named
by the id. Connection "c" joins a room literally named "b" (the id of
connection "b"); when "a" then sends a private message to "b", connection
"c" receives it too — the message is not delivered to connection "b"
only. -/
theorem claim_C8_counterexample :
    ("c" : String) ≠ "b"
    ∧ (⟨"c", "receive_private_message", .receivePrivateMessage demoMsg⟩ :
        Emission)
      ∈ (processClientEvent vDemo
          (runEvents vDemo stABC [("c", .join_room "b" "eve")]) "a"
          (.private_message "b" demoMsg)).2
    ∧ (⟨"b", "receive_private_message", .receivePrivateMessage demoMsg⟩ :
        Emission)
      ∈ (processClientEvent vDemo
          (runEvents vDemo stABC [("c", .join_room "b" "eve")]) "a"
          (.private_message "b" demoMsg)).2 := by decide

/-- Claim C8 as amended: `private_message{toSocketId: X, message: M}`
relays `M` verbatim as `receive_private_message` to every live member of
the room named `X` other than the sender — under normal operation exactly
connection `X` through its personal room, but also any connection that
has joined a room whose name equals `X`. When no live connection is a
member of the room named `X`, the event is silently dropped: no emission
and no state change, with nothing surfaced to the sender. -/
theorem claim_C8_amended (verify : String → Bool) (st : ServerState)
    (sid : String) (sock : Socket) (X : String) (msg : ChatMessage)
    (hfind : findSock st.socks sid = some sock)
    (hc : sock.connected = true) (ha : authOk verify sock = true) :
    (processClientEvent verify st sid (.private_message X msg)).2
      = emitFromTo st sid X "receive_private_message"
          (.receivePrivateMessage msg)
    ∧ (∀ s ∈ fetchSockets st X, s.sid ≠ sid →
        (⟨s.sid, "receive_private_message",
          .receivePrivateMessage msg⟩ : Emission)
          ∈ (processClientEvent verify st sid (.private_message X msg)).2)
    ∧ (∀ e ∈ (processClientEvent verify st sid (.private_message X msg)).2,
        e.toSid ≠ sid ∧ e.event = "receive_private_message"
          ∧ e.payload = .receivePrivateMessage msg)
    ∧ ((∀ s ∈ st.socks, s.connected = true →
          s.sid ∈ roomSids st.adapter X → False) →
        (processClientEvent verify st sid (.private_message X msg)).2 = [])
    ∧ (processClientEvent verify st sid (.private_message X msg)).1 = st := by
  rw [processClientEvent_auth_ok _ hfind hc ha]
  refine ⟨rfl, ?_, ?_, ?_, rfl⟩
  · intro s hs hne
    exact mem_emitFromTo.mpr ⟨s, hs, hne, rfl⟩
  · intro e he
    rcases mem_emitFromTo.mp he with ⟨s, hs, hne, rfl⟩
    exact ⟨hne, rfl, rfl⟩
  · intro hno
    show emitFromTo st sid X "receive_private_message"
      (.receivePrivateMessage msg) = []
    unfold emitFromTo
    have hempty : fetchSockets st X = [] := by
      rw [List.eq_nil_iff_forall_not_mem]
      intro s hs
      rcases mem_fetchSockets.mp hs with ⟨hr, hfind2, hconn⟩
      exact hno s (findSock_mem hfind2).1 hconn hr
    rw [hempty]
    rfl

/-- Witness for the amended C8: "a" sends a private message to "b" in the
three-connection state (nobody has joined a room named "b" besides "b"'s
personal room). -/
theorem claim_C8_amended_witness :
    (processClientEvent vDemo stABC "a" (.private_message "b" demoMsg)).2
      = emitFromTo stABC "a" "b" "receive_private_message"
          (.receivePrivateMessage demoMsg)
    ∧ (∀ s ∈ fetchSockets stABC "b", s.sid ≠ "a" →
        (⟨s.sid, "receive_private_message",
          .receivePrivateMessage demoMsg⟩ : Emission)
          ∈ (processClientEvent vDemo stABC "a"
              (.private_message "b" demoMsg)).2)
    ∧ (∀ e ∈ (processClientEvent vDemo stABC "a"
          (.private_message "b" demoMsg)).2,
        e.toSid ≠ "a" ∧ e.event = "receive_private_message"
          ∧ e.payload = .receivePrivateMessage demoMsg)
    ∧ ((∀ s ∈ stABC.socks, s.connected = true →
          s.sid ∈ roomSids stABC.adapter "b" → False) →
        (processClientEvent vDemo stABC "a"
          (.private_message "b" demoMsg)).2 = [])
    ∧ (processClientEvent vDemo stABC "a"
        (.private_message "b" demoMsg)).1 = stABC :=
  claim_C8_amended vDemo stABC "a" (freshSocket "a" (some "good")) "b"
    demoMsg rfl rfl rfl

/-! ### Claim C10 — self-targeted private messages (corrected) -/

/-- Counterexample for C10: connection "c" joins a room named "a" (the
sender's own id); "a" then sends a private message to itself. The claim
says nothing is delivered, yet "c" receives the message — the room named
after the sender's id had another member. -/
theorem claim_C10_counterexample :
    (⟨"c", "receive_private_message", .receivePrivateMessage demoMsg⟩ :
        Emission)
      ∈ (processClientEvent vDemo
          (runEvents vDemo stABC [("c", .join_room "a" "eve")]) "a"
          (.private_message "a" demoMsg)).2 := by decide

/-- Claim C10 as amended: a `private_message` whose `toSocketId` equals
the sender's own id never delivers anything to the sender itself and
raises no error (the state is unchanged); it delivers nothing at all
provided no other connection is a member of the room named after the
sender's id. -/
theorem claim_C10_amended (verify : String → Bool) (st : ServerState)
    (sid : String) (sock : Socket) (msg : ChatMessage)
    (hfind : findSock st.socks sid = some sock)
    (hc : sock.connected = true) (ha : authOk verify sock = true) :
    (∀ e ∈ (processClientEvent verify st sid (.private_message sid msg)).2,
      e.toSid ≠ sid)
    ∧ ((∀ s ∈ st.socks, s.sid ∈ roomSids st.adapter sid → s.sid = sid) →
        (processClientEvent verify st sid (.private_message sid msg)).2 = [])
    ∧ (processClientEvent verify st sid (.private_message sid msg)).1
        = st := by
  rw [processClientEvent_auth_ok _ hfind hc ha]
  refine ⟨?_, ?_, rfl⟩
  · intro e he
    exact emitFromTo_toSid_ne he
  · intro hno
    show emitFromTo st sid sid "receive_private_message"
      (.receivePrivateMessage msg) = []
    unfold emitFromTo
    have hfil : (fetchSockets st sid).filter (fun s => s.sid != sid) = [] :=
      List.filter_eq_nil_iff.mpr (fun s hs => by
        rcases mem_fetchSockets.mp hs with ⟨hr, hfind2, hconn⟩
        have hss := hno s (findSock_mem hfind2).1 hr
        simp [hss])
    rw [hfil]
    rfl

/-- Witness for the amended C10: "a" messages itself in the
three-connection state (no foreign member in the room named "a"). -/
theorem claim_C10_amended_witness :
    (∀ e ∈ (processClientEvent vDemo stABC "a"
        (.private_message "a" demoMsg)).2, e.toSid ≠ "a")
    ∧ ((∀ s ∈ stABC.socks, s.sid ∈ roomSids stABC.adapter "a" →
          s.sid = "a") →
        (processClientEvent vDemo stABC "a"
          (.private_message "a" demoMsg)).2 = [])
    ∧ (processClientEvent vDemo stABC "a"
        (.private_message "a" demoMsg)).1 = stABC :=
  claim_C10_amended vDemo stABC "a" (freshSocket "a" (some "good")) demoMsg
    rfl rfl rfl

/-! ### Claim C9 — the truthiness filter on presence -/

/-- Claim C9: every presence recomputation (`buildUsers` over the live
membership, as run by both `join_room` and the disconnect handler)
includes only connections whose author attribute is set and nonempty:
every roster entry names a member with that nonempty author and carries
its id, and a member whose author is missing or empty never contributes
its id to the roster. -/
theorem claim_C9_presence_filter (st : ServerState) (room : String) :
    (∀ p ∈ buildUsers (fetchSockets st room),
      p.1 ≠ "" ∧ ∃ s ∈ fetchSockets st room,
        s.dataAuthor = some p.1 ∧ p.2 = s.sid)
    ∧ (∀ i : String,
        (∀ s ∈ fetchSockets st room, s.sid = i →
          s.dataAuthor = none ∨ s.dataAuthor = some "") →
        ∀ p ∈ buildUsers (fetchSockets st room), p.2 ≠ i) := by
  refine ⟨buildUsers_mem_source _, ?_⟩
  intro i hauth p hp hcon
  obtain ⟨hne, s, hs, hA, hv⟩ := buildUsers_mem_source _ p hp
  rcases hauth s hs (by rw [← hv, hcon]) with h | h
  · rw [h] at hA
    exact absurd hA (by simp)
  · rw [h] at hA
    exact hne (Option.some.inj hA).symm

/-- "a" joined room "r" with an empty author name, "b" as "bob". -/
def stNoName : ServerState :=
  runEvents vDemo stAB
    [("a", .join_room "r" ""), ("b", .join_room "r" "bob")]

/-- Witness for C9 at a concrete state with an empty-author member. -/
theorem claim_C9_presence_filter_witness :
    (∀ p ∈ buildUsers (fetchSockets stNoName "r"),
      p.1 ≠ "" ∧ ∃ s ∈ fetchSockets stNoName "r",
        s.dataAuthor = some p.1 ∧ p.2 = s.sid)
    ∧ (∀ i : String,
        (∀ s ∈ fetchSockets stNoName "r", s.sid = i →
          s.dataAuthor = none ∨ s.dataAuthor = some "") →
        ∀ p ∈ buildUsers (fetchSockets stNoName "r"), p.2 ≠ i) :=
  claim_C9_presence_filter stNoName "r"

end SocketChat
